import Mathlib

/-!
# Batmobile shaders: material selector and visibility controller

Shallow embedding of `src/script.js`: the module-level state (matcap textures, the two shared
material objects, the GUI-bound parameter objects, the three asynchronously loaded targets) and
the callbacks that mutate it (GUI `onChange` handlers, `updateMaterials`, the three
`gltfLoader.load` completion callbacks and the per-frame `tick`).

Conventions of the embedding
* Objects of the rendering engine are records; a material slot holds a reference to one of the two
  shared material objects of the script or to a material that came with the loaded file.
* `Object3D.traverse` is the engine traversal: the callback runs on the node, then on every
  descendant, depth first.
* Numbers that the script only stores or copies are rationals; `Math.sin` is a parameter.
* A GUI event first writes the bound property and then runs the registered `onChange` handler.
* The GUI library is not part of the sources; `deliver` states what its number controls emit for
  an entered number, from the bounds the script declares on them.
-/

namespace Batmobile

/-! ## Engine data -/

/-- Texture handle returned by `textureLoader.load(path)`, identified by its path. -/
abbrev Texture := String

/-- Blending constants of the engine. -/
inductive Blending where
  | NoBlending
  | NormalBlending
  | AdditiveBlending
  | SubtractiveBlending
  | MultiplyBlending
  | CustomBlending
  deriving DecidableEq

/-- Face culling side constants of the engine. -/
inductive Side where
  | FrontSide
  | BackSide
  | DoubleSide
  deriving DecidableEq

/-- Three component vector (`scale`, `position`). -/
structure Vector3 where
  x : ℚ
  y : ℚ
  z : ℚ
  deriving DecidableEq

/-- Reference held in the `material` slot of a node: one of the two shared material objects
created by the script, or a material baked into the loaded file. -/
inductive Material where
  | shaderMaterial
  | matcapMaterial
  | baked (id : Nat)
  deriving DecidableEq

/-- Own properties of a scene-graph node that the script reads or writes. `material` is `none`
for nodes without a material slot; `rotation_y` is `rotation.y`. -/
structure Props where
  name : String
  isMesh : Bool
  material : Option Material
  visible : Bool
  rotation_y : ℚ
  scale : Vector3
  position : Vector3
  deriving DecidableEq

/-- Scene-graph node with its children (`gltf.scene` is the root of such a graph). -/
inductive Object3D where
  | mk (props : Props) (children : List Object3D)

/-- Own properties of the root node. -/
def Object3D.props : Object3D → Props
  | .mk p _ => p

/-- Children of the root node. -/
def Object3D.children : Object3D → List Object3D
  | .mk _ cs => cs

/-- Write to own properties of the root object (`obj.visible = v`, `obj.scale.set(..)`, ...). -/
def Object3D.update (f : Props → Props) : Object3D → Object3D
  | .mk p cs => .mk (f p) cs

/-- The assignment `obj.visible = value`. -/
def Object3D.setVisible (value : Bool) (o : Object3D) : Object3D :=
  o.update fun p => { p with visible := value }

/-- The call `obj.scale.set(x, y, z)`. -/
def Object3D.setScale (x y z : ℚ) (o : Object3D) : Object3D :=
  o.update fun p => { p with scale := ⟨x, y, z⟩ }

/-- The call `obj.position.set(x, y, z)`. -/
def Object3D.setPosition (x y z : ℚ) (o : Object3D) : Object3D :=
  o.update fun p => { p with position := ⟨x, y, z⟩ }

/-- The assignment `obj.rotation.y = value`. -/
def Object3D.setRotationY (value : ℚ) (o : Object3D) : Object3D :=
  o.update fun p => { p with rotation_y := value }

mutual
/-- Engine traversal `obj.traverse(callback)`: callback on the node, then on each child. -/
def Object3D.traverse (callback : Props → Props) : Object3D → Object3D
  | .mk p cs => .mk (callback p) (traverseChildren callback cs)
/-- Traversal of a list of children, in order. -/
def traverseChildren (callback : Props → Props) : List Object3D → List Object3D
  | [] => []
  | c :: cs => c.traverse callback :: traverseChildren callback cs
end

mutual
/-- Every node of the graph, in traversal order (own properties only). -/
def Object3D.nodes : Object3D → List Props
  | .mk p cs => p :: nodesOfChildren cs
/-- Nodes of a list of children, in traversal order. -/
def nodesOfChildren : List Object3D → List Props
  | [] => []
  | c :: cs => c.nodes ++ nodesOfChildren cs
end

/-- Substring test on character lists. -/
def includesChars (search : List Char) : List Char → Bool
  | [] => search.isEmpty
  | c :: cs => search.isPrefixOf (c :: cs) || includesChars search cs

/-- The string method `s.includes(search)`. -/
def includes (s search : String) : Bool :=
  includesChars search.toList s.toList

/-- Array read `xs[i]`: `none` (undefined) outside the bounds. -/
def index {α : Type} (xs : List α) (i : Int) : Option α :=
  if 0 ≤ i then xs[i.toNat]? else none

/-! ## Module state -/

/-- The constant array `matcapTextures`. -/
def matcapTextures : List Texture :=
  ["textures/matcaps/1.png", "textures/matcaps/2.png", "textures/matcaps/3.png",
    "textures/matcaps/4.png"]

/-- The object `matcapMaterial` (a `MeshMatcapMaterial`). -/
structure MatcapMaterial where
  matcap : Option Texture
  deriving DecidableEq

/-- The object `shaderMaterialParameters`. -/
structure ShaderMaterialParameters where
  color : String
  transparent : Bool
  uLineWork : ℚ
  deriving DecidableEq

/-- The uniforms of `shaderMaterial`. -/
structure Uniforms where
  uTime : ℚ
  uColor : String
  uLineWork : ℚ
  deriving DecidableEq

/-- The object `shaderMaterial` (a `ShaderMaterial`); shader sources are external assets. -/
structure ShaderMaterial where
  uniforms : Uniforms
  transparent : Bool
  side : Side
  depthWrite : Bool
  blending : Blending
  deriving DecidableEq

/-- The object `materialOptions`. -/
structure MaterialOptions where
  material : String
  matcap : Int
  deriving DecidableEq

/-- The object `objectVisibility`. -/
structure ObjectVisibility where
  batmobile1 : Bool
  batmobile2 : Bool
  batmobile3 : Bool
  deriving DecidableEq

/-- Identifier of one of the three targets. -/
inductive TargetId where
  | batmobile1
  | batmobile2
  | batmobile3
  deriving DecidableEq

/-- Module-level mutable state of the script. A target variable is `none` while it is `null`.
`scene` lists the targets added with `scene.add`, oldest first. -/
structure State where
  currentMatcapIndex : Int
  matcapMaterial : MatcapMaterial
  shaderMaterialParameters : ShaderMaterialParameters
  shaderMaterial : ShaderMaterial
  materialOptions : MaterialOptions
  batmobile1 : Option Object3D
  batmobile2 : Option Object3D
  batmobile3 : Option Object3D
  objectVisibility : ObjectVisibility
  scene : List TargetId

/-- State after the top-level statements of the script have run, before any callback. -/
def init : State :=
  let currentMatcapIndex : Int := 1
  let shaderMaterialParameters : ShaderMaterialParameters :=
    { color := "#00ff40", transparent := true, uLineWork := -0.8299 }
  { currentMatcapIndex := currentMatcapIndex
    matcapMaterial := { matcap := index matcapTextures currentMatcapIndex }
    shaderMaterialParameters := shaderMaterialParameters
    shaderMaterial :=
      { uniforms :=
          { uTime := 0
            uColor := shaderMaterialParameters.color
            uLineWork := shaderMaterialParameters.uLineWork }
        transparent := shaderMaterialParameters.transparent
        side := Side.DoubleSide
        depthWrite := false
        blending := Blending.AdditiveBlending }
    materialOptions := { material := "shader", matcap := currentMatcapIndex }
    batmobile1 := none
    batmobile2 := none
    batmobile3 := none
    objectVisibility := { batmobile1 := true, batmobile2 := true, batmobile3 := true }
    scene := [] }

/-- The target variable named by an identifier. -/
def State.target (s : State) : TargetId → Option Object3D
  | .batmobile1 => s.batmobile1
  | .batmobile2 => s.batmobile2
  | .batmobile3 => s.batmobile3

/-! ## Shader material handlers -/

/-- Handler of the `color` control: `uColor.value.set(shaderMaterialParameters.color)`. -/
def colorOnChange (s : State) : State :=
  { s with shaderMaterial :=
      { s.shaderMaterial with uniforms :=
          { s.shaderMaterial.uniforms with uColor := s.shaderMaterialParameters.color } } }

/-- Handler of the `uLineWork` control:
`uLineWork.value = shaderMaterialParameters.uLineWork`. -/
def uLineWorkOnChange (s : State) : State :=
  { s with shaderMaterial :=
      { s.shaderMaterial with uniforms :=
          { s.shaderMaterial.uniforms with uLineWork := s.shaderMaterialParameters.uLineWork } } }

/-! ## Material selector -/

/-- The choice `material === "matcap" ? matcapMaterial : shaderMaterial`. -/
def selectedMaterial (material : String) : Material :=
  if material = "matcap" then Material.matcapMaterial else Material.shaderMaterial

/-- Traversal callback used for `batmobile1` and `batmobile2`:
`if (child.isMesh) child.material = selectedMaterial`. -/
def assignMaterial (selected : Material) (child : Props) : Props :=
  if child.isMesh then { child with material := some selected } else child

/-- Traversal callback used for `batmobile3`:
`if (child.isMesh && !child.name.includes("Floor")) child.material = selectedMaterial`. -/
def assignMaterialExceptFloor (selected : Material) (child : Props) : Props :=
  if child.isMesh && !includes child.name "Floor" then
    { child with material := some selected }
  else child

/-- First statement of `updateMaterials`: `if (batmobile1) batmobile1.traverse(..)`. -/
def updateMaterials1 (selected : Material) (s : State) : State :=
  match s.batmobile1 with
  | some b => { s with batmobile1 := some (b.traverse (assignMaterial selected)) }
  | none => s

/-- Second statement of `updateMaterials`: `if (batmobile2) batmobile2.traverse(..)`. -/
def updateMaterials2 (selected : Material) (s : State) : State :=
  match s.batmobile2 with
  | some b => { s with batmobile2 := some (b.traverse (assignMaterial selected)) }
  | none => s

/-- Third statement of `updateMaterials`: `if (batmobile3) batmobile3.traverse(..)`. -/
def updateMaterials3 (selected : Material) (s : State) : State :=
  match s.batmobile3 with
  | some b => { s with batmobile3 := some (b.traverse (assignMaterialExceptFloor selected)) }
  | none => s

/-- The statement of `updateMaterials` that refers to the given target. -/
def updateMaterialsBranch : TargetId → Material → State → State
  | .batmobile1 => updateMaterials1
  | .batmobile2 => updateMaterials2
  | .batmobile3 => updateMaterials3

/-- The function `updateMaterials(material)`. -/
def updateMaterials (material : String) (s : State) : State :=
  let selected := selectedMaterial material
  updateMaterials3 selected (updateMaterials2 selected (updateMaterials1 selected s))

/-- Handler of the `material` control: `updateMaterials(materialOptions.material)`. -/
def materialOnChange (s : State) : State :=
  updateMaterials s.materialOptions.material s

/-- Handler of the `matcap` control, called with the new value. -/
def matcapOnChange (i : Int) (s : State) : State :=
  let s1 := { s with currentMatcapIndex := i }
  let s2 := { s1 with matcapMaterial := { matcap := index matcapTextures s1.currentMatcapIndex } }
  updateMaterials s2.materialOptions.material s2

/-! ## Load completion callbacks -/

/-- Completion callback of `batmobile_movie.glb`. -/
def load1 (gltf_scene : Object3D) (s : State) : State :=
  let s1 := { s with batmobile1 := some gltf_scene }
  let s2 := updateMaterials s1.materialOptions.material s1
  let s3 := { s2 with batmobile1 := s2.batmobile1.map (Object3D.setScale 0.5 0.5 0.5) }
  { s3 with scene := s3.scene ++ [TargetId.batmobile1] }

/-- Completion callback of `batmobile.glb`. -/
def load2 (gltf_scene : Object3D) (s : State) : State :=
  let s1 := { s with batmobile2 := some gltf_scene }
  let s2 := updateMaterials s1.materialOptions.material s1
  let s3 := { s2 with batmobile2 := s2.batmobile2.map (Object3D.setScale 0.02 0.02 0.02) }
  let s4 := { s3 with batmobile2 := s3.batmobile2.map (Object3D.setPosition 0 3 0) }
  { s4 with scene := s4.scene ++ [TargetId.batmobile2] }

/-- Completion callback of `batmobiletumbler.glb`. -/
def load3 (gltf_scene : Object3D) (s : State) : State :=
  let s1 := { s with batmobile3 := some gltf_scene }
  let s2 := updateMaterials s1.materialOptions.material s1
  let s3 := { s2 with batmobile3 := s2.batmobile3.map (Object3D.setScale 0.25 0.25 0.25) }
  let s4 := { s3 with batmobile3 := s3.batmobile3.map (Object3D.setPosition 0 (-4) 0) }
  { s4 with scene := s4.scene ++ [TargetId.batmobile3] }

/-- Completion callback of the load of the given target. -/
def loadCallback : TargetId → Object3D → State → State
  | .batmobile1 => load1
  | .batmobile2 => load2
  | .batmobile3 => load3

/-! ## Visibility controller -/

/-- Handler of the `objectVisibility.batmobile3` control:
`if (batmobile3) batmobile3.visible = value`. -/
def visibility3OnChange (value : Bool) (s : State) : State :=
  match s.batmobile3 with
  | some b => { s with batmobile3 := some (b.setVisible value) }
  | none => s

/-- Handler of the `objectVisibility.batmobile1` control:
`if (batmobile1) batmobile1.visible = value`. -/
def visibility1OnChange (value : Bool) (s : State) : State :=
  match s.batmobile1 with
  | some b => { s with batmobile1 := some (b.setVisible value) }
  | none => s

/-- Handler of the `objectVisibility.batmobile2` control:
`if (batmobile2) batmobile2.visible = value`. -/
def visibility2OnChange (value : Bool) (s : State) : State :=
  match s.batmobile2 with
  | some b => { s with batmobile2 := some (b.setVisible value) }
  | none => s

/-- Visibility handler of the given target. -/
def visibilityOnChange : TargetId → Bool → State → State
  | .batmobile1 => visibility1OnChange
  | .batmobile2 => visibility2OnChange
  | .batmobile3 => visibility3OnChange

/-- The write the GUI makes to `objectVisibility` before it runs the handler. -/
def setObjectVisibility (id : TargetId) (value : Bool) (s : State) : State :=
  match id with
  | .batmobile1 => { s with objectVisibility := { s.objectVisibility with batmobile1 := value } }
  | .batmobile2 => { s with objectVisibility := { s.objectVisibility with batmobile2 := value } }
  | .batmobile3 => { s with objectVisibility := { s.objectVisibility with batmobile3 := value } }

/-- Read of the flag of a target in `objectVisibility`. -/
def ObjectVisibility.get (v : ObjectVisibility) : TargetId → Bool
  | .batmobile1 => v.batmobile1
  | .batmobile2 => v.batmobile2
  | .batmobile3 => v.batmobile3

/-! ## Frame loop -/

/-- Write of the `uTime` uniform in `tick`. -/
def tickTime (elapsedTime : ℚ) (s : State) : State :=
  { s with shaderMaterial :=
      { s.shaderMaterial with uniforms := { s.shaderMaterial.uniforms with uTime := elapsedTime } } }

/-- Rotation statement of `tick` for `batmobile1`. -/
def tickRotate1 (sin : ℚ → ℚ) (elapsedTime : ℚ) (s : State) : State :=
  match s.batmobile1 with
  | some b =>
    { s with batmobile1 := some (b.setRotationY (sin (elapsedTime * 0.2))) }
  | none => s

/-- Rotation statement of `tick` for `batmobile2`. -/
def tickRotate2 (sin : ℚ → ℚ) (elapsedTime : ℚ) (s : State) : State :=
  match s.batmobile2 with
  | some b =>
    { s with batmobile2 := some (b.setRotationY (-sin (elapsedTime * 0.2 + 1))) }
  | none => s

/-- Rotation statement of `tick` for `batmobile3`. -/
def tickRotate3 (sin : ℚ → ℚ) (elapsedTime : ℚ) (s : State) : State :=
  match s.batmobile3 with
  | some b =>
    { s with batmobile3 := some (b.setRotationY (sin (elapsedTime * 0.3 + 2))) }
  | none => s

/-- The rotation statement of `tick` that refers to the given target. -/
def tickRotateBranch (sin : ℚ → ℚ) : TargetId → ℚ → State → State
  | .batmobile1 => tickRotate1 sin
  | .batmobile2 => tickRotate2 sin
  | .batmobile3 => tickRotate3 sin

/-- State update of one call of `tick` at the given clock reading (controls update, rendering
and the request of the next frame touch no modelled state). -/
def tick (sin : ℚ → ℚ) (elapsedTime : ℚ) (s : State) : State :=
  tickRotate3 sin elapsedTime
    (tickRotate2 sin elapsedTime (tickRotate1 sin elapsedTime (tickTime elapsedTime s)))

/-! ## Events -/

/-- External events: GUI changes (the value a control emits is written to the bound property,
then the handler runs with it), load completions and frames. -/
inductive Event where
  | color (value : String)
  | uLineWork (value : ℚ)
  | material (value : String)
  | matcap (value : Int)
  | visibility (id : TargetId) (value : Bool)
  | load (id : TargetId) (gltf_scene : Object3D)
  | frame (elapsedTime : ℚ)

/-- Effect of one event on the module state. -/
def step (sin : ℚ → ℚ) (s : State) : Event → State
  | .color value =>
    colorOnChange { s with shaderMaterialParameters := { s.shaderMaterialParameters with color := value } }
  | .uLineWork value =>
    uLineWorkOnChange
      { s with shaderMaterialParameters := { s.shaderMaterialParameters with uLineWork := value } }
  | .material value =>
    materialOnChange { s with materialOptions := { s.materialOptions with material := value } }
  | .matcap value =>
    matcapOnChange value { s with materialOptions := { s.materialOptions with matcap := value } }
  | .visibility id value => visibilityOnChange id value (setObjectVisibility id value s)
  | .load id gltf_scene => loadCallback id gltf_scene s
  | .frame elapsedTime => tick sin elapsedTime s

/-- State reached from `s` after a sequence of events, oldest first. -/
def run (sin : ℚ → ℚ) (s : State) (events : List Event) : State :=
  events.foldl (step sin) s

/-! ## Vocabulary of the specification -/

/-- Clamping of a value into a closed range, the operation the specification names. -/
def clamp {α : Type} [LinearOrder α] (v lo hi : α) : α :=
  max lo (min v hi)

/-- Number of available matcap textures. -/
def N : Int := matcapTextures.length

/-- Node names, mesh flags and material slots of every node of a target, in traversal order. -/
def materialsOf (o : Object3D) : List (String × Bool × Option Material) :=
  o.nodes.map fun p => (p.name, p.isMesh, p.material)

/-- Visible flags of every node of a target, in traversal order; the head is the flag of the
target itself. -/
def visibleOf (o : Object3D) : List Bool :=
  o.nodes.map fun p => p.visible

/-- Whether the material selector skips a node of the given target. -/
def isExcluded (id : TargetId) (name : String) : Bool :=
  match id with
  | .batmobile3 => includes name "Floor"
  | _ => false

/-- Relation between a node before and after a material update with the selected material under
the floor policy: identity and flags kept, floor nodes keep their material, other meshes get the
selected one, nodes that are not meshes keep theirs. -/
def FloorPolicy (selected : Material) (before after : Props) : Prop :=
  after.name = before.name ∧ after.isMesh = before.isMesh ∧ after.visible = before.visible ∧
  (includes before.name "Floor" = true → after.material = before.material) ∧
  (before.isMesh = true → includes before.name "Floor" = false → after.material = some selected) ∧
  (before.isMesh = false → after.material = before.material)

/-- A fresh single-mesh scene as a loader delivers it: visible, with a baked material. -/
def sampleMesh (name : String) : Object3D :=
  .mk { name := name, isMesh := true, material := some (Material.baked 0), visible := true,
        rotation_y := 0, scale := ⟨1, 1, 1⟩, position := ⟨0, 0, 0⟩ } []

/-- A fresh scene: a group holding a body mesh and a floor mesh. -/
def sampleScene : Object3D :=
  .mk { name := "Scene", isMesh := false, material := none, visible := true,
        rotation_y := 0, scale := ⟨1, 1, 1⟩, position := ⟨0, 0, 0⟩ }
    [sampleMesh "Body", sampleMesh "Floor_plane"]

/-- Every mesh node of the target that the selector does not skip holds the given material. -/
def Carries (selected : Material) (id : TargetId) (o : Object3D) : Prop :=
  ∀ p ∈ o.nodes, p.isMesh = true → isExcluded id p.name = false → p.material = some selected

/-- Invariant of the material selector: the matcap material shows the texture at the current
index, the GUI value agrees with the current index, and every loaded target carries the material
selected by `materialOptions.material`. -/
def SelectorInv (s : State) : Prop :=
  s.matcapMaterial.matcap = index matcapTextures s.currentMatcapIndex ∧
  s.materialOptions.matcap = s.currentMatcapIndex ∧
  ∀ id o, s.target id = some o → Carries (selectedMaterial s.materialOptions.material) id o

/-- Own properties of the body mesh of `sampleScene` once the matcap material is applied. -/
def sampleBodyMatcap : Props :=
  { name := "Body", isMesh := true, material := some Material.matcapMaterial, visible := true,
    rotation_y := 0, scale := ⟨1, 1, 1⟩, position := ⟨0, 0, 0⟩ }

/-- The graph `sampleScene` as target 3 holds it after its load completed under the matcap
selection: body mesh switched, floor mesh as delivered, root scaled and positioned. -/
def sampleLoaded3 : Object3D :=
  .mk { name := "Scene", isMesh := false, material := none, visible := true,
        rotation_y := 0, scale := ⟨0.25, 0.25, 0.25⟩, position := ⟨0, -4, 0⟩ }
    [.mk sampleBodyMatcap [], sampleMesh "Floor_plane"]

/-- A session: matcap index 2 and kind matcap chosen before any load, then targets 3 and 1
complete. -/
def sampleSession : List Event :=
  [Event.matcap 2, Event.material "matcap", Event.load .batmobile3 sampleScene,
    Event.load .batmobile1 (sampleMesh "Floor_1")]

/-- The visible flag of a target, `none` while the target is absent. -/
def targetVisible (s : State) (id : TargetId) : Option Bool :=
  (s.target id).map fun o => o.props.visible

/-- Modelled from the spec: the number controls of the GUI panel, whose library is not part of
the sources. The script declares the `uLineWork` control with `.min(-1.5).max(0.65)` and the
`matcap` control with the bounds `0` and `matcapTextures.length - 1`; the specification says that
out-of-range GUI input is clamped silently into the declared range. `deliver` maps what the user
enters in a control to the event the control emits: the entered number, rounded to the step of
the control by `snap` (a parameter; integers are on the step 1 of the `matcap` control), is
clamped into the declared bounds. The other controls and the non-GUI events pass unchanged. -/
def deliver (snap : ℚ → ℚ) : Event → Event
  | .uLineWork entered => .uLineWork (clamp (snap entered) (-1.5) 0.65)
  | .matcap entered => .matcap (clamp entered 0 (N - 1))
  | e => e

/-- The three targets in the order in which `updateMaterials` and `tick` refer to them. -/
def allTargets : List TargetId :=
  [TargetId.batmobile1, TargetId.batmobile2, TargetId.batmobile3]

/-! ## Traversal lemmas -/

mutual
/-- Traversal applies the callback to every node, in order. -/
theorem nodes_traverse (f : Props → Props) : ∀ o : Object3D, (o.traverse f).nodes = o.nodes.map f
  | .mk p cs => by
    simp [Object3D.traverse, Object3D.nodes, nodesOfChildren_traverse f cs]
/-- Traversal of children applies the callback to every node below them, in order. -/
theorem nodesOfChildren_traverse (f : Props → Props) :
    ∀ cs : List Object3D, nodesOfChildren (traverseChildren f cs) = (nodesOfChildren cs).map f
  | [] => by simp [traverseChildren, nodesOfChildren]
  | c :: cs => by
    simp [traverseChildren, nodesOfChildren, nodes_traverse f c, nodesOfChildren_traverse f cs]
end

mutual
/-- Two traversals in a row are one traversal with the composed callback. -/
theorem traverse_traverse (f g : Props → Props) :
    ∀ o : Object3D, (o.traverse g).traverse f = o.traverse (fun p => f (g p))
  | .mk p cs => by
    simp [Object3D.traverse, traverseChildren_traverseChildren f g cs]
/-- Two traversals of children in a row are one traversal with the composed callback. -/
theorem traverseChildren_traverseChildren (f g : Props → Props) :
    ∀ cs : List Object3D,
      traverseChildren f (traverseChildren g cs) = traverseChildren (fun p => f (g p)) cs
  | [] => by simp [traverseChildren]
  | c :: cs => by
    simp [traverseChildren, traverse_traverse f g c, traverseChildren_traverseChildren f g cs]
end

/-- Nodes of a graph: the root, then the nodes below it. -/
theorem nodes_eq (o : Object3D) : o.nodes = o.props :: nodesOfChildren o.children := by
  cases o; simp [Object3D.nodes, Object3D.props, Object3D.children]

/-- A write to the root touches the head of the node list only. -/
theorem nodes_update (f : Props → Props) (o : Object3D) :
    (o.update f).nodes = f o.props :: nodesOfChildren o.children := by
  cases o; simp [Object3D.update, Object3D.nodes, Object3D.props, Object3D.children]

/-- A root write that keeps name, mesh flag and material keeps the material view. -/
theorem materialsOf_update (f : Props → Props) (o : Object3D)
    (hf : ∀ p, (f p).name = p.name ∧ (f p).isMesh = p.isMesh ∧ (f p).material = p.material) :
    materialsOf (o.update f) = materialsOf o := by
  simp [materialsOf, nodes_update, nodes_eq o, hf]

/-- A root write that keeps the visible flag keeps the visibility view. -/
theorem visibleOf_update (f : Props → Props) (o : Object3D)
    (hf : ∀ p, (f p).visible = p.visible) :
    visibleOf (o.update f) = visibleOf o := by
  simp [visibleOf, nodes_update, nodes_eq o, hf]

/-! ## Closed forms of the callbacks -/

/-- The three statements of `updateMaterials` as one record update. -/
theorem updateMaterials_eq (material : String) (s : State) :
    updateMaterials material s =
      { s with
        batmobile1 := s.batmobile1.map (Object3D.traverse (assignMaterial (selectedMaterial material)))
        batmobile2 := s.batmobile2.map (Object3D.traverse (assignMaterial (selectedMaterial material)))
        batmobile3 := s.batmobile3.map
          (Object3D.traverse (assignMaterialExceptFloor (selectedMaterial material))) } := by
  rcases s with ⟨a, b, c, d, e, b1, b2, b3, v, sc⟩
  cases b1 <;> cases b2 <;> cases b3 <;> rfl

/-- Closed form of the visibility handlers. -/
theorem visibilityOnChange_target (id j : TargetId) (value : Bool) (s : State) :
    (visibilityOnChange id value s).target j =
      if j = id then (s.target j).map (Object3D.setVisible value) else s.target j := by
  rcases s with ⟨a, b, c, d, e, b1, b2, b3, v, sc⟩
  cases id <;> cases j <;> cases b1 <;> cases b2 <;> cases b3 <;> rfl

/-- Closed form of `tick`. -/
theorem tick_eq (sin : ℚ → ℚ) (t : ℚ) (s : State) :
    tick sin t s =
      { s with
        shaderMaterial :=
          { s.shaderMaterial with uniforms := { s.shaderMaterial.uniforms with uTime := t } }
        batmobile1 := s.batmobile1.map (Object3D.setRotationY (sin (t * 0.2)))
        batmobile2 := s.batmobile2.map (Object3D.setRotationY (-sin (t * 0.2 + 1)))
        batmobile3 := s.batmobile3.map (Object3D.setRotationY (sin (t * 0.3 + 2))) } := by
  rcases s with ⟨a, b, c, d, e, b1, b2, b3, v, sc⟩
  cases b1 <;> cases b2 <;> cases b3 <;> rfl

/-- Closed form of the completion callback of target 1. -/
theorem load1_eq (g : Object3D) (s : State) :
    load1 g s =
      { s with
        batmobile1 := some ((g.traverse
          (assignMaterial (selectedMaterial s.materialOptions.material))).setScale 0.5 0.5 0.5)
        batmobile2 := s.batmobile2.map
          (Object3D.traverse (assignMaterial (selectedMaterial s.materialOptions.material)))
        batmobile3 := s.batmobile3.map
          (Object3D.traverse (assignMaterialExceptFloor (selectedMaterial s.materialOptions.material)))
        scene := s.scene ++ [TargetId.batmobile1] } := by
  simp [load1, updateMaterials_eq]

/-- Closed form of the completion callback of target 2. -/
theorem load2_eq (g : Object3D) (s : State) :
    load2 g s =
      { s with
        batmobile1 := s.batmobile1.map
          (Object3D.traverse (assignMaterial (selectedMaterial s.materialOptions.material)))
        batmobile2 := some (((g.traverse
          (assignMaterial (selectedMaterial s.materialOptions.material))).setScale
            0.02 0.02 0.02).setPosition 0 3 0)
        batmobile3 := s.batmobile3.map
          (Object3D.traverse (assignMaterialExceptFloor (selectedMaterial s.materialOptions.material)))
        scene := s.scene ++ [TargetId.batmobile2] } := by
  simp [load2, updateMaterials_eq]

/-- Closed form of the completion callback of target 3. -/
theorem load3_eq (g : Object3D) (s : State) :
    load3 g s =
      { s with
        batmobile1 := s.batmobile1.map
          (Object3D.traverse (assignMaterial (selectedMaterial s.materialOptions.material)))
        batmobile2 := s.batmobile2.map
          (Object3D.traverse (assignMaterial (selectedMaterial s.materialOptions.material)))
        batmobile3 := some (((g.traverse
          (assignMaterialExceptFloor (selectedMaterial s.materialOptions.material))).setScale
            0.25 0.25 0.25).setPosition 0 (-4) 0)
        scene := s.scene ++ [TargetId.batmobile3] } := by
  simp [load3, updateMaterials_eq]

/-! ## Callback lemmas -/

/-- The plain callback is idempotent. -/
theorem assignMaterial_idem (sel : Material) (p : Props) :
    assignMaterial sel (assignMaterial sel p) = assignMaterial sel p := by
  unfold assignMaterial
  cases h : p.isMesh <;> simp [h]

/-- The floor-excluding callback is idempotent. -/
theorem assignMaterialExceptFloor_idem (sel : Material) (p : Props) :
    assignMaterialExceptFloor sel (assignMaterialExceptFloor sel p) =
      assignMaterialExceptFloor sel p := by
  unfold assignMaterialExceptFloor
  cases h : p.isMesh <;> cases h2 : includes p.name "Floor" <;> simp [h, h2]

/-- The floor-excluding callback obeys the floor policy on every node. -/
theorem floorPolicy_assign (sel : Material) (p : Props) :
    FloorPolicy sel p (assignMaterialExceptFloor sel p) := by
  unfold FloorPolicy assignMaterialExceptFloor
  cases h : p.isMesh <;> cases h2 : includes p.name "Floor" <;> simp [h, h2]

/-- The floor policy on every node of a traversed graph. -/
theorem floorPolicy_nodes (sel : Material) (l : List Props) :
    List.Forall₂ (FloorPolicy sel) l (l.map (assignMaterialExceptFloor sel)) := by
  induction l with
  | nil => simp
  | cons p l ih => exact List.Forall₂.cons (floorPolicy_assign sel p) ih

/-! ## Claims -/

/-- C3. Idempotence of material selection: in every state (any subset of the three targets
loaded, any node graphs) and for every material kind, calling `updateMaterials` twice in a row
yields the same state, hence the same material on every node of every target, as calling it
once. -/
theorem updateMaterials_idempotent (material : String) (s : State) :
    updateMaterials material (updateMaterials material s) = updateMaterials material s ∧
    ∀ id : TargetId,
      ((updateMaterials material (updateMaterials material s)).target id).map materialsOf =
        ((updateMaterials material s).target id).map materialsOf := by
  have h : updateMaterials material (updateMaterials material s) = updateMaterials material s := by
    rw [updateMaterials_eq material (updateMaterials material s), updateMaterials_eq material s]
    simp [Option.map_map, Function.comp_def, traverse_traverse, assignMaterial_idem,
      assignMaterialExceptFloor_idem]
  exact ⟨h, fun id => by rw [h]⟩

/-- C4. Floor exclusion: for every node graph `g` held as target 3 and every material kind,
`updateMaterials` keeps the nodes of target 3 in place and relates each node before to the same
node after by the floor policy (a node whose name contains "Floor" keeps its material, every
other mesh node gets the selected material); the same relation holds between the graph the
loader delivers and target 3 after its load completion callback. -/
theorem floor_exclusion (material : String) (s : State) (g : Object3D) :
    (∃ g', (updateMaterials material { s with batmobile3 := some g }).batmobile3 = some g' ∧
      List.Forall₂ (FloorPolicy (selectedMaterial material)) g.nodes g'.nodes) ∧
    (∃ g', (load3 g s).batmobile3 = some g' ∧
      List.Forall₂ (FloorPolicy (selectedMaterial s.materialOptions.material))
        g.nodes g'.nodes) := by
  constructor
  · refine ⟨g.traverse (assignMaterialExceptFloor (selectedMaterial material)), ?_, ?_⟩
    · simp [updateMaterials_eq]
    · rw [nodes_traverse]
      exact floorPolicy_nodes _ _
  · refine ⟨_, by rw [load3_eq], ?_⟩
    cases g with
    | mk p cs =>
      simp only [Object3D.traverse, Object3D.setScale, Object3D.setPosition, Object3D.update,
        Object3D.nodes, nodesOfChildren_traverse]
      refine List.Forall₂.cons ?_ (floorPolicy_nodes _ _)
      have h := floorPolicy_assign (selectedMaterial s.materialOptions.material) p
      unfold FloorPolicy at h ⊢
      exact h

/-! ## Selector invariant -/

/-- After a traversal with the callback of its target, a graph carries the selected material. -/
theorem carries_traverse (sel : Material) (o : Object3D) :
    Carries sel .batmobile1 (o.traverse (assignMaterial sel)) ∧
    Carries sel .batmobile2 (o.traverse (assignMaterial sel)) ∧
    Carries sel .batmobile3 (o.traverse (assignMaterialExceptFloor sel)) := by
  refine ⟨?_, ?_, ?_⟩ <;>
  · intro p hp hm hx
    rw [nodes_traverse, List.mem_map] at hp
    obtain ⟨q, -, rfl⟩ := hp
    revert hm hx
    cases h : q.isMesh <;> cases h2 : includes q.name "Floor" <;>
      simp [assignMaterial, assignMaterialExceptFloor, isExcluded, h, h2]

/-- A root write that keeps name, mesh flag and material keeps what the graph carries. -/
theorem carries_update (sel : Material) (id : TargetId) (f : Props → Props) (o : Object3D)
    (hf : ∀ p, (f p).name = p.name ∧ (f p).isMesh = p.isMesh ∧ (f p).material = p.material)
    (h : Carries sel id o) : Carries sel id (o.update f) := by
  intro p hp hm hx
  rw [nodes_update, List.mem_cons] at hp
  rcases hp with rfl | hp
  · have := h o.props (by rw [nodes_eq]; exact List.mem_cons_self _ _)
    rw [(hf o.props).1, (hf o.props).2.1, (hf o.props).2.2] at *
    exact this hm hx
  · exact h p (by rw [nodes_eq]; exact List.mem_cons_of_mem _ hp) hm hx

/-- Every target present after `updateMaterials` carries the selected material. -/
theorem carries_updateMaterials (material : String) (s : State) (id : TargetId) (o : Object3D)
    (h : (updateMaterials material s).target id = some o) :
    Carries (selectedMaterial material) id o := by
  rw [updateMaterials_eq] at h
  cases id <;> simp only [State.target, Option.map_eq_some'] at h <;>
    obtain ⟨o0, -, rfl⟩ := h
  · exact (carries_traverse _ o0).1
  · exact (carries_traverse _ o0).2.1
  · exact (carries_traverse _ o0).2.2

/-- The targets are not touched by the write the GUI makes to `objectVisibility`. -/
theorem setObjectVisibility_target (id j : TargetId) (v : Bool) (s : State) :
    (setObjectVisibility id v s).target j = s.target j := by
  cases id <;> cases j <;> rfl

/-- A visibility handler writes no field of the module state other than its target. -/
theorem visibilityOnChange_fields (id : TargetId) (v : Bool) (s : State) :
    (visibilityOnChange id v s).currentMatcapIndex = s.currentMatcapIndex ∧
    (visibilityOnChange id v s).matcapMaterial = s.matcapMaterial ∧
    (visibilityOnChange id v s).shaderMaterialParameters = s.shaderMaterialParameters ∧
    (visibilityOnChange id v s).shaderMaterial = s.shaderMaterial ∧
    (visibilityOnChange id v s).materialOptions = s.materialOptions ∧
    (visibilityOnChange id v s).objectVisibility = s.objectVisibility ∧
    (visibilityOnChange id v s).scene = s.scene := by
  rcases s with ⟨a, b, c, d, e, b1, b2, b3, w, sc⟩
  cases id <;> cases b1 <;> cases b2 <;> cases b3 <;> exact ⟨rfl, rfl, rfl, rfl, rfl, rfl, rfl⟩

/-- The selector invariant holds initially. -/
theorem selectorInv_init : SelectorInv init := by
  refine ⟨rfl, rfl, ?_⟩
  intro id o h
  cases id <;> simp [State.target, init] at h

/-- The root writes of the script keep name, mesh flag and material of the root. -/
theorem carries_setters (sel : Material) (id : TargetId) (o : Object3D) (h : Carries sel id o) :
    (∀ v, Carries sel id (o.setVisible v)) ∧ (∀ x y z, Carries sel id (o.setScale x y z)) ∧
    (∀ x y z, Carries sel id (o.setPosition x y z)) ∧ (∀ r, Carries sel id (o.setRotationY r)) :=
  ⟨fun _ => carries_update sel id _ o (fun _ => ⟨rfl, rfl, rfl⟩) h,
   fun _ _ _ => carries_update sel id _ o (fun _ => ⟨rfl, rfl, rfl⟩) h,
   fun _ _ _ => carries_update sel id _ o (fun _ => ⟨rfl, rfl, rfl⟩) h,
   fun _ => carries_update sel id _ o (fun _ => ⟨rfl, rfl, rfl⟩) h⟩

/-- Every event preserves the selector invariant. -/
theorem selectorInv_step (sin : ℚ → ℚ) (s : State) (e : Event) (h : SelectorInv s) :
    SelectorInv (step sin s e) := by
  obtain ⟨h1, h2, h3⟩ := h
  cases e with
  | color v =>
    refine ⟨h1, h2, fun id o ho => h3 id o ?_⟩
    cases id <;> exact ho
  | uLineWork v =>
    refine ⟨h1, h2, fun id o ho => h3 id o ?_⟩
    cases id <;> exact ho
  | material v =>
    refine ⟨?_, ?_, fun id o ho => ?_⟩
    · simpa [step, materialOnChange, updateMaterials_eq] using h1
    · simpa [step, materialOnChange, updateMaterials_eq] using h2
    · have hm : (step sin s (Event.material v)).materialOptions.material = v := by
        simp [step, materialOnChange, updateMaterials_eq]
      rw [hm]
      exact carries_updateMaterials v _ id o ho
  | matcap i =>
    refine ⟨?_, ?_, fun id o ho => ?_⟩
    · simp [step, matcapOnChange, updateMaterials_eq]
    · simp [step, matcapOnChange, updateMaterials_eq]
    · have hm : (step sin s (Event.matcap i)).materialOptions.material =
          s.materialOptions.material := by
        simp [step, matcapOnChange, updateMaterials_eq]
      rw [hm]
      exact carries_updateMaterials _ _ id o ho
  | visibility t v =>
    have hf := visibilityOnChange_fields t v (setObjectVisibility t v s)
    have hs : (setObjectVisibility t v s).currentMatcapIndex = s.currentMatcapIndex ∧
        (setObjectVisibility t v s).matcapMaterial = s.matcapMaterial ∧
        (setObjectVisibility t v s).materialOptions = s.materialOptions := by
      cases t <;> exact ⟨rfl, rfl, rfl⟩
    simp only [SelectorInv, step, hf.1, hf.2.1, hf.2.2.2.2.1, hs.1, hs.2.1, hs.2.2]
    refine ⟨h1, h2, fun id o ho => ?_⟩
    rw [visibilityOnChange_target, setObjectVisibility_target] at ho
    split at ho
    · rw [Option.map_eq_some'] at ho
      obtain ⟨o0, ho0, rfl⟩ := ho
      exact (carries_setters _ _ _ (h3 id o0 ho0)).1 v
    · exact h3 id o ho
  | load t g =>
    cases t
    · simp only [SelectorInv, step, loadCallback, load1_eq]
      refine ⟨h1, h2, fun id o ho => ?_⟩
      cases id <;> simp only [State.target, Option.map_eq_some', Option.some.injEq] at ho
      · subst ho
        exact (carries_setters _ _ _ (carries_traverse _ g).1).2.1 _ _ _
      · obtain ⟨o0, -, rfl⟩ := ho
        exact (carries_traverse _ o0).2.1
      · obtain ⟨o0, -, rfl⟩ := ho
        exact (carries_traverse _ o0).2.2
    · simp only [SelectorInv, step, loadCallback, load2_eq]
      refine ⟨h1, h2, fun id o ho => ?_⟩
      cases id <;> simp only [State.target, Option.map_eq_some', Option.some.injEq] at ho
      · obtain ⟨o0, -, rfl⟩ := ho
        exact (carries_traverse _ o0).1
      · subst ho
        exact (carries_setters _ _ _
          ((carries_setters _ _ _ (carries_traverse _ g).2.1).2.1 _ _ _)).2.2.1 _ _ _
      · obtain ⟨o0, -, rfl⟩ := ho
        exact (carries_traverse _ o0).2.2
    · simp only [SelectorInv, step, loadCallback, load3_eq]
      refine ⟨h1, h2, fun id o ho => ?_⟩
      cases id <;> simp only [State.target, Option.map_eq_some', Option.some.injEq] at ho
      · obtain ⟨o0, -, rfl⟩ := ho
        exact (carries_traverse _ o0).1
      · obtain ⟨o0, -, rfl⟩ := ho
        exact (carries_traverse _ o0).2.1
      · subst ho
        exact (carries_setters _ _ _
          ((carries_setters _ _ _ (carries_traverse _ g).2.2).2.1 _ _ _)).2.2.1 _ _ _
  | frame t =>
    simp only [SelectorInv, step, tick_eq]
    refine ⟨h1, h2, fun id o ho => ?_⟩
    cases id <;> simp only [State.target, Option.map_eq_some'] at ho <;>
      obtain ⟨o0, ho0, rfl⟩ := ho
    · exact (carries_setters _ _ _ (h3 .batmobile1 o0 ho0)).2.2.2 _
    · exact (carries_setters _ _ _ (h3 .batmobile2 o0 ho0)).2.2.2 _
    · exact (carries_setters _ _ _ (h3 .batmobile3 o0 ho0)).2.2.2 _

/-- The selector invariant holds in every state reached from a state where it holds. -/
theorem selectorInv_run (sin : ℚ → ℚ) (events : List Event) :
    ∀ s, SelectorInv s → SelectorInv (run sin s events) := by
  induction events with
  | nil => intro s h; exact h
  | cons e es ih => intro s h; exact ih _ (selectorInv_step sin s e h)

/-- C1. In every state reached from the initial state by any sequence of events (material-kind
changes, matcap-index changes and load completions in any order, and also the other GUI events
and frames), the matcap material shows `matcapTextures[currentMatcapIndex]`, and every mesh node
of a loaded target (for target 3: every mesh node whose name does not contain "Floor") holds the
shader material when `materialOptions.material` is "shader" and the matcap material when it is
"matcap". -/
theorem loaded_targets_carry_selected (sin : ℚ → ℚ) (events : List Event) (id : TargetId)
    (o : Object3D) (ho : (run sin init events).target id = some o) (p : Props)
    (hp : p ∈ o.nodes) (hm : p.isMesh = true)
    (hx : id = TargetId.batmobile3 → includes p.name "Floor" = false) :
    (run sin init events).matcapMaterial.matcap =
      index matcapTextures (run sin init events).currentMatcapIndex ∧
    (run sin init events).materialOptions.matcap = (run sin init events).currentMatcapIndex ∧
    ((run sin init events).materialOptions.material = "shader" →
      p.material = some Material.shaderMaterial) ∧
    ((run sin init events).materialOptions.material = "matcap" →
      p.material = some Material.matcapMaterial) := by
  obtain ⟨h1, h2, h3⟩ := selectorInv_run sin events init selectorInv_init
  have hc := h3 id o ho p hp hm (by cases id <;> first | rfl | exact hx rfl)
  refine ⟨h1, h2, fun hk => ?_, fun hk => ?_⟩
  · rw [hc, hk]; rfl
  · rw [hc, hk]; rfl

/-- Witness for C1: the selector is set to matcap index 2 before any load, then targets 3 and 1
complete; the body mesh of target 3 holds the matcap material showing the third texture. -/
theorem loaded_targets_carry_selected_witness :
    (run (fun x => x) init sampleSession).target TargetId.batmobile3 = some sampleLoaded3 ∧
    sampleBodyMatcap ∈ sampleLoaded3.nodes ∧
    sampleBodyMatcap.isMesh = true ∧
    includes sampleBodyMatcap.name "Floor" = false ∧
    (run (fun x => x) init sampleSession).materialOptions.material = "matcap" ∧
    (run (fun x => x) init sampleSession).matcapMaterial.matcap
      = index matcapTextures (run (fun x => x) init sampleSession).currentMatcapIndex ∧
    (run (fun x => x) init sampleSession).currentMatcapIndex = 2 ∧
    sampleBodyMatcap.material = some Material.matcapMaterial :=
  have hmem : sampleBodyMatcap ∈ sampleLoaded3.nodes := List.Mem.tail _ (List.Mem.head _)
  have h := loaded_targets_carry_selected (fun x => x) sampleSession TargetId.batmobile3
    sampleLoaded3 rfl sampleBodyMatcap hmem rfl (fun _ => by decide)
  ⟨rfl, hmem, rfl, by decide, rfl, h.1, rfl, h.2.2.2 rfl⟩

/-- C10, evaluated on the code: in the initial state `currentMatcapIndex` is 1, not 2, and the
matcap material shows `matcapTextures[1]`, the texture loaded from "textures/matcaps/2.png", not
the texture of "textures/matcaps/3.png" that the comment on the declaration announces; the
initial GUI value `materialOptions.matcap` is the same index 1. -/
theorem init_matcap_default :
    init.currentMatcapIndex = 1 ∧ init.currentMatcapIndex ≠ 2 ∧
    init.matcapMaterial.matcap = some "textures/matcaps/2.png" ∧
    index matcapTextures 2 = some "textures/matcaps/3.png" ∧
    init.matcapMaterial.matcap ≠ index matcapTextures 2 ∧
    init.materialOptions.matcap = init.currentMatcapIndex := by
  decide

/-! ## Number controls -/

/-- A clamped value lies in the range when the range is not empty. -/
theorem clamp_mem {α : Type} [LinearOrder α] (v lo hi : α) (h : lo ≤ hi) :
    lo ≤ clamp v lo hi ∧ clamp v lo hi ≤ hi :=
  ⟨le_max_left _ _, max_le h (min_le_right _ _)⟩

/-- Clamping keeps a value that lies in the range. -/
theorem clamp_eq_self {α : Type} [LinearOrder α] (v lo hi : α) (h1 : lo ≤ v) (h2 : v ≤ hi) :
    clamp v lo hi = v := by
  rw [clamp, min_eq_left h2, max_eq_right h1]

/-- The `uLineWork` handler copies the parameter into the uniform, whatever its value. -/
theorem uLineWorkOnChange_copies (s : State) :
    (uLineWorkOnChange s).shaderMaterial.uniforms.uLineWork
      = s.shaderMaterialParameters.uLineWork ∧
    (uLineWorkOnChange s).shaderMaterialParameters = s.shaderMaterialParameters :=
  ⟨rfl, rfl⟩

/-- The `matcap` handler stores the value it is called with and reads the array at it. -/
theorem matcapOnChange_stores (i : Int) (s : State) :
    (matcapOnChange i s).currentMatcapIndex = i ∧
    (matcapOnChange i s).matcapMaterial.matcap = index matcapTextures i ∧
    (matcapOnChange i s).materialOptions = s.materialOptions := by
  simp [matcapOnChange, updateMaterials_eq]

/-- Every index within the bounds of the `matcap` control reads a texture of the array. -/
theorem index_matcapTextures_defined (c : Int) (h0 : 0 ≤ c) (h1 : c ≤ N - 1) :
    ∃ t, index matcapTextures c = some t := by
  have h3 : c ≤ 3 := by simpa [N, matcapTextures] using h1
  have : c = 0 ∨ c = 1 ∨ c = 2 ∨ c = 3 := by omega
  rcases this with rfl | rfl | rfl | rfl <;> exact ⟨_, rfl⟩

/-- The control emits 3 for an entered 7 and 0 for an entered -1; the handler then selects the
fourth and the first texture. -/
theorem matcap_control_examples :
    deliver (fun x => x) (Event.matcap 7) = Event.matcap 3 ∧
    deliver (fun x => x) (Event.matcap (-1)) = Event.matcap 0 ∧
    (step (fun x => x) init (deliver (fun x => x) (Event.matcap 7))).currentMatcapIndex = 3 ∧
    (step (fun x => x) init (deliver (fun x => x) (Event.matcap 7))).matcapMaterial.matcap
      = some "textures/matcaps/4.png" ∧
    (step (fun x => x) init (deliver (fun x => x) (Event.matcap (-1)))).currentMatcapIndex = 0 ∧
    (step (fun x => x) init (deliver (fun x => x) (Event.matcap (-1)))).matcapMaterial.matcap
      = some "textures/matcaps/1.png" :=
  ⟨congrArg Event.matcap (by decide), congrArg Event.matcap (by decide), by decide, by decide,
    by decide, by decide⟩

/-- The line-work uniform equals the parameter and the parameter lies within the bounds of its
control: this holds initially and after every emitted event. -/
theorem lineWork_step (sin snap : ℚ → ℚ) (s : State) (e : Event)
    (h : s.shaderMaterial.uniforms.uLineWork = s.shaderMaterialParameters.uLineWork ∧
      -1.5 ≤ s.shaderMaterialParameters.uLineWork ∧ s.shaderMaterialParameters.uLineWork ≤ 0.65) :
    (step sin s (deliver snap e)).shaderMaterial.uniforms.uLineWork
      = (step sin s (deliver snap e)).shaderMaterialParameters.uLineWork ∧
    -1.5 ≤ (step sin s (deliver snap e)).shaderMaterialParameters.uLineWork ∧
    (step sin s (deliver snap e)).shaderMaterialParameters.uLineWork ≤ 0.65 := by
  cases e with
  | color v => exact h
  | uLineWork x =>
    have hc := clamp_mem (snap x) (-1.5 : ℚ) 0.65 (by norm_num)
    exact ⟨rfl, hc.1, hc.2⟩
  | material v => simpa [step, deliver, materialOnChange, updateMaterials_eq] using h
  | matcap i => simpa [step, deliver, matcapOnChange, updateMaterials_eq] using h
  | visibility t v =>
    have hf := visibilityOnChange_fields t v (setObjectVisibility t v s)
    have hs : (setObjectVisibility t v s).shaderMaterial = s.shaderMaterial ∧
        (setObjectVisibility t v s).shaderMaterialParameters = s.shaderMaterialParameters := by
      cases t <;> exact ⟨rfl, rfl⟩
    simp only [step, deliver, hf.2.2.1, hf.2.2.2.1, hs.1, hs.2]
    exact h
  | load t g =>
    cases t <;> simpa [step, deliver, loadCallback, load1_eq, load2_eq, load3_eq] using h
  | frame t => simpa [step, deliver, tick_eq] using h

/-- C5. Matcap index clamping: for every integer entered in the matcap-index control, also below
0 and above N - 1 with N the length 4 of `matcapTextures`, the change event (the control clamps
into its declared bounds, the handler stores what it is passed) ends in a state where
`currentMatcapIndex` and the GUI value are the entered integer clamped into the range 0 to
N - 1 and the matcap texture is the defined texture of `matcapTextures` at the clamped index. -/
theorem matcap_control_clamps (sin snap : ℚ → ℚ) (i : Int) (s : State) :
    (step sin s (deliver snap (Event.matcap i))).currentMatcapIndex = clamp i 0 (N - 1) ∧
    (step sin s (deliver snap (Event.matcap i))).materialOptions.matcap = clamp i 0 (N - 1) ∧
    (step sin s (deliver snap (Event.matcap i))).matcapMaterial.matcap
      = index matcapTextures (clamp i 0 (N - 1)) ∧
    (∃ t, (step sin s (deliver snap (Event.matcap i))).matcapMaterial.matcap = some t) ∧
    0 ≤ clamp i 0 (N - 1) ∧ clamp i 0 (N - 1) ≤ N - 1 := by
  have hc := clamp_mem i 0 (N - 1) (by decide)
  have hs := matcapOnChange_stores (clamp i 0 (N - 1))
    { s with materialOptions := { s.materialOptions with matcap := clamp i 0 (N - 1) } }
  have hstep : step sin s (deliver snap (Event.matcap i)) =
      matcapOnChange (clamp i 0 (N - 1))
        { s with materialOptions := { s.materialOptions with matcap := clamp i 0 (N - 1) } } :=
    rfl
  rw [hstep]
  refine ⟨hs.1, ?_, hs.2.1, ?_, hc.1, hc.2⟩
  · rw [hs.2.2]
  · obtain ⟨t, ht⟩ := index_matcapTextures_defined _ hc.1 hc.2
    exact ⟨t, hs.2.1.trans ht⟩

/-- C6. Line-work threshold clamping: for every number entered in the `uLineWork` control, also
below -1.5 and above 0.65, after the change event (the control clamps into its declared bounds,
the handler copies the parameter) the parameter holds the entered number, rounded to the step,
clamped into the range from -1.5 to 0.65, and the uniform holds the parameter, which is the
parameter clamped into that range; and in every state reached from the initial state by emitted
events the uniform lies in the range from -1.5 to 0.65. -/
theorem uLineWork_control_clamps (sin snap : ℚ → ℚ) (x : ℚ) (s : State) (entered : List Event) :
    (step sin s (deliver snap (Event.uLineWork x))).shaderMaterialParameters.uLineWork
      = clamp (snap x) (-1.5) 0.65 ∧
    (step sin s (deliver snap (Event.uLineWork x))).shaderMaterial.uniforms.uLineWork
      = (step sin s (deliver snap (Event.uLineWork x))).shaderMaterialParameters.uLineWork ∧
    (step sin s (deliver snap (Event.uLineWork x))).shaderMaterial.uniforms.uLineWork
      = clamp (step sin s (deliver snap (Event.uLineWork x))).shaderMaterialParameters.uLineWork
          (-1.5) 0.65 ∧
    -1.5 ≤ (step sin s (deliver snap (Event.uLineWork x))).shaderMaterial.uniforms.uLineWork ∧
    (step sin s (deliver snap (Event.uLineWork x))).shaderMaterial.uniforms.uLineWork ≤ 0.65 ∧
    (run sin init (entered.map (deliver snap))).shaderMaterial.uniforms.uLineWork
      = clamp (run sin init (entered.map (deliver snap))).shaderMaterialParameters.uLineWork
          (-1.5) 0.65 ∧
    -1.5 ≤ (run sin init (entered.map (deliver snap))).shaderMaterial.uniforms.uLineWork ∧
    (run sin init (entered.map (deliver snap))).shaderMaterial.uniforms.uLineWork ≤ 0.65 := by
  have hc := clamp_mem (snap x) (-1.5 : ℚ) 0.65 (by norm_num)
  have hcopy := uLineWorkOnChange_copies
    { s with shaderMaterialParameters :=
        { s.shaderMaterialParameters with uLineWork := clamp (snap x) (-1.5) 0.65 } }
  have hstep : step sin s (deliver snap (Event.uLineWork x)) =
      uLineWorkOnChange
        { s with shaderMaterialParameters :=
            { s.shaderMaterialParameters with uLineWork := clamp (snap x) (-1.5) 0.65 } } :=
    rfl
  have hparam : (step sin s (deliver snap (Event.uLineWork x))).shaderMaterialParameters.uLineWork
      = clamp (snap x) (-1.5) 0.65 := by
    rw [hstep, hcopy.2]
  have huni : (step sin s (deliver snap (Event.uLineWork x))).shaderMaterial.uniforms.uLineWork
      = clamp (snap x) (-1.5) 0.65 := by
    rw [hstep, hcopy.1]
  have hrun : ∀ (es : List Event) (s0 : State),
      (s0.shaderMaterial.uniforms.uLineWork = s0.shaderMaterialParameters.uLineWork ∧
        -1.5 ≤ s0.shaderMaterialParameters.uLineWork ∧
        s0.shaderMaterialParameters.uLineWork ≤ 0.65) →
      ((run sin s0 (es.map (deliver snap))).shaderMaterial.uniforms.uLineWork
          = (run sin s0 (es.map (deliver snap))).shaderMaterialParameters.uLineWork ∧
        -1.5 ≤ (run sin s0 (es.map (deliver snap))).shaderMaterialParameters.uLineWork ∧
        (run sin s0 (es.map (deliver snap))).shaderMaterialParameters.uLineWork ≤ 0.65) := by
    intro es
    induction es with
    | nil => intro s0 h0; exact h0
    | cons e es ih => intro s0 h0; exact ih _ (lineWork_step sin snap s0 e h0)
  have hinit : init.shaderMaterial.uniforms.uLineWork = init.shaderMaterialParameters.uLineWork ∧
      -1.5 ≤ init.shaderMaterialParameters.uLineWork ∧
      init.shaderMaterialParameters.uLineWork ≤ 0.65 := by
    refine ⟨rfl, ?_, ?_⟩
    · show (-1.5 : ℚ) ≤ -0.8299
      norm_num
    · show (-0.8299 : ℚ) ≤ 0.65
      norm_num
  obtain ⟨r1, r2, r3⟩ := hrun entered init hinit
  refine ⟨hparam, huni.trans hparam.symm, ?_, ?_, ?_, ?_, ?_, ?_⟩
  · rw [huni, hparam, clamp_eq_self _ _ _ hc.1 hc.2]
  · rw [huni]; exact hc.1
  · rw [huni]; exact hc.2
  · rw [r1, clamp_eq_self _ _ _ r2 r3]
  · rw [r1]; exact r2
  · rw [r1]; exact r3

/-- Counterexample to C2: from the initial state, unchecking the visibility control of target 1
before its load completes leaves the loaded target visible, while the other order leaves it
invisible. -/
theorem visibility_before_load_lost :
    targetVisible (run (fun x => x) init
      [Event.visibility TargetId.batmobile1 false,
        Event.load TargetId.batmobile1 (sampleMesh "Body")]) TargetId.batmobile1 = some true ∧
    targetVisible (run (fun x => x) init
      [Event.visibility TargetId.batmobile1 false,
        Event.load TargetId.batmobile1 (sampleMesh "Body")]) TargetId.batmobile1 ≠ some false ∧
    targetVisible (run (fun x => x) init
      [Event.load TargetId.batmobile1 (sampleMesh "Body"),
        Event.visibility TargetId.batmobile1 false]) TargetId.batmobile1 = some false := by
  decide

/-- C2 as amended: for every target, state and loaded graph, completing the load and then
unchecking the visibility control leaves the target invisible; unchecking the control first
records false in `objectVisibility` only, and after the load completes the target has the
visible flag of the graph the loader delivered; running the handler once more after the load
gives the state of the other order. -/
theorem visibility_load_order (sin : ℚ → ℚ) (id : TargetId) (s : State) (g : Object3D) :
    targetVisible (run sin s [Event.load id g, Event.visibility id false]) id = some false ∧
    targetVisible (run sin s [Event.visibility id false, Event.load id g]) id
      = some g.props.visible ∧
    (run sin s [Event.visibility id false, Event.load id g]).objectVisibility.get id = false ∧
    visibilityOnChange id false (run sin s [Event.visibility id false, Event.load id g])
      = run sin s [Event.load id g, Event.visibility id false] := by
  rcases s with ⟨a, b, c, d, e, b1, b2, b3, w, sc⟩
  rcases g with ⟨p, cs⟩
  refine ⟨?_, ?_, ?_, ?_⟩
  · cases id <;> cases b1 <;> cases b2 <;> cases b3 <;> rfl
  · cases id <;> cases b1 <;> cases b2 <;> cases b3 <;>
      simp [targetVisible, run, step, loadCallback, load1_eq, load2_eq, load3_eq, State.target,
        Object3D.props, Object3D.traverse, Object3D.setScale, Object3D.setPosition,
        Object3D.update, assignMaterial, assignMaterialExceptFloor] <;>
      split <;> rfl
  · cases id <;> cases b1 <;> cases b2 <;> cases b3 <;> rfl
  · cases id <;> cases b1 <;> cases b2 <;> cases b3 <;> rfl

/-- C7. Absent targets are no-ops: when a target is not loaded, the statement of
`updateMaterials` that refers to it, its visibility handler and the rotation statement of `tick`
that refers to it each return the state unchanged; `updateMaterials` and `tick` leave it absent
and equal the run of the statements of the other targets alone; and with no target loaded
`updateMaterials` and every visibility handler return the state unchanged. -/
theorem absent_target_noop (sin : ℚ → ℚ) (s : State) (id : TargetId)
    (h : s.target id = none) :
    (∀ selected, updateMaterialsBranch id selected s = s) ∧
    (∀ value, visibilityOnChange id value s = s) ∧
    (∀ t, tickRotateBranch sin id t s = s) ∧
    (∀ material, (updateMaterials material s).target id = none ∧
      updateMaterials material s =
        (allTargets.filter fun j => j ≠ id).foldl
          (fun st j => updateMaterialsBranch j (selectedMaterial material) st) s) ∧
    (∀ t, (tick sin t s).target id = none ∧
      tick sin t s =
        (allTargets.filter fun j => j ≠ id).foldl
          (fun st j => tickRotateBranch sin j t st) (tickTime t s)) ∧
    (∀ j value, (visibilityOnChange j value s).target id = none) ∧
    ((∀ j, s.target j = none) →
      (∀ material, updateMaterials material s = s) ∧
      (∀ j value, visibilityOnChange j value s = s)) := by
  rcases s with ⟨a, b, c, d, e, b1, b2, b3, w, sc⟩
  refine ⟨?_, ?_, ?_, ?_, ?_, ?_, ?_⟩
  · intro selected
    cases id <;> simp only [State.target] at h <;> subst h <;> rfl
  · intro value
    cases id <;> simp only [State.target] at h <;> subst h <;> rfl
  · intro t
    cases id <;> simp only [State.target] at h <;> subst h <;> rfl
  · intro material
    cases id <;> cases b1 <;> cases b2 <;> cases b3 <;> first | exact ⟨rfl, rfl⟩ | cases h
  · intro t
    cases id <;> cases b1 <;> cases b2 <;> cases b3 <;> first | exact ⟨rfl, rfl⟩ | cases h
  · intro j value
    cases id <;> cases j <;> cases b1 <;> cases b2 <;> cases b3 <;> first | rfl | cases h
  · intro hall
    have h1 := hall .batmobile1
    have h2 := hall .batmobile2
    have h3 := hall .batmobile3
    simp only [State.target] at h1 h2 h3
    subst h1 h2 h3
    exact ⟨fun _ => rfl, fun j _ => by cases j <;> rfl⟩

/-- Witness for C7: in the initial state no target is loaded; the operations on target 2 and
on all targets return the initial state. -/
theorem absent_target_noop_witness :
    init.target TargetId.batmobile2 = none ∧
    (∀ value, visibilityOnChange TargetId.batmobile2 value init = init) ∧
    (∀ t, (tick (fun x => x) t init).target TargetId.batmobile2 = none) ∧
    (∀ material, updateMaterials material init = init) :=
  have h := absent_target_noop (fun x => x) init TargetId.batmobile2 rfl
  ⟨rfl, h.2.1, fun t => (h.2.2.2.2.1 t).1,
    (h.2.2.2.2.2.2 (fun j => by cases j <;> rfl)).1⟩

/-- The material callbacks keep the visible flag of a node. -/
theorem assign_visible (sel : Material) (p : Props) :
    (assignMaterial sel p).visible = p.visible ∧
    (assignMaterialExceptFloor sel p).visible = p.visible := by
  unfold assignMaterial assignMaterialExceptFloor
  constructor <;> split <;> rfl

/-- A traversal with a callback that keeps the visible flag keeps the visibility view. -/
theorem visibleOf_traverse (f : Props → Props) (hf : ∀ p, (f p).visible = p.visible)
    (o : Object3D) : visibleOf (o.traverse f) = visibleOf o := by
  simp [visibleOf, nodes_traverse, hf]

/-- The visible flag of a graph is the head of its visibility view. -/
theorem visibleOf_head (o : Object3D) : (visibleOf o).head? = some o.props.visible := by
  simp [visibleOf, nodes_eq o]

/-- `updateMaterials` keeps the visibility view of every target. -/
theorem updateMaterials_visibleOf (material : String) (s : State) (j : TargetId) :
    ((updateMaterials material s).target j).map visibleOf = (s.target j).map visibleOf := by
  rw [updateMaterials_eq]
  cases j <;> simp only [State.target, Option.map_map] <;> congr 1 <;> funext o
  · exact visibleOf_traverse _ (fun p => (assign_visible _ p).1) o
  · exact visibleOf_traverse _ (fun p => (assign_visible _ p).1) o
  · exact visibleOf_traverse _ (fun p => (assign_visible _ p).2) o

/-- The visible flag of a target is determined by its visibility view. -/
theorem targetVisible_eq_of_visibleOf (s s' : State) (j : TargetId)
    (h : (s'.target j).map visibleOf = (s.target j).map visibleOf) :
    targetVisible s' j = targetVisible s j := by
  unfold targetVisible
  cases h1 : s'.target j <;> cases h2 : s.target j <;> simp [h1, h2] at h ⊢
  have := congrArg List.head? h
  simpa [visibleOf_head] using this

/-- C8. Visibility and material are independent: in every state, the visibility handler of a
target rewrites only the visible flag of that target (own properties otherwise equal, children
equal), keeps names, mesh flags and materials of every node of every target, keeps the other
two targets and keeps the selector state and both material objects; `updateMaterials` and the
matcap-index handler keep the visible flag of every target and of every node below it. -/
theorem visibility_material_independent (s : State) :
    (∀ id value,
      ((visibilityOnChange id value s).target id).map (fun o => (o.props, o.children))
        = (s.target id).map (fun o => ({ o.props with visible := value }, o.children)) ∧
      (∀ j, ((visibilityOnChange id value s).target j).map materialsOf
        = (s.target j).map materialsOf) ∧
      (∀ j, j ≠ id → (visibilityOnChange id value s).target j = s.target j) ∧
      (visibilityOnChange id value s).matcapMaterial = s.matcapMaterial ∧
      (visibilityOnChange id value s).shaderMaterial = s.shaderMaterial ∧
      (visibilityOnChange id value s).materialOptions = s.materialOptions ∧
      (visibilityOnChange id value s).currentMatcapIndex = s.currentMatcapIndex) ∧
    (∀ material j,
      targetVisible (updateMaterials material s) j = targetVisible s j ∧
      ((updateMaterials material s).target j).map visibleOf = (s.target j).map visibleOf) ∧
    (∀ i j,
      targetVisible (matcapOnChange i s) j = targetVisible s j ∧
      ((matcapOnChange i s).target j).map visibleOf = (s.target j).map visibleOf) := by
  refine ⟨fun id value => ⟨?_, fun j => ?_, fun j hj => ?_, ?_⟩, fun material j => ?_,
    fun i j => ?_⟩
  · rw [visibilityOnChange_target, if_pos rfl, Option.map_map]
    congr 1
    funext o
    cases o
    rfl
  · rw [visibilityOnChange_target]
    split
    · rw [Option.map_map]
      congr 1
      funext o
      exact materialsOf_update _ o (fun _ => ⟨rfl, rfl, rfl⟩)
    · rfl
  · rw [visibilityOnChange_target, if_neg hj]
  · have hf := visibilityOnChange_fields id value s
    exact ⟨hf.2.1, hf.2.2.2.1, hf.2.2.2.2.1, hf.1⟩
  · have h := updateMaterials_visibleOf material s j
    exact ⟨targetVisible_eq_of_visibleOf _ _ j h, h⟩
  · have h : ((matcapOnChange i s).target j).map visibleOf = (s.target j).map visibleOf := by
      unfold matcapOnChange
      simp only []
      rw [updateMaterials_visibleOf]
      cases j <;> rfl
    exact ⟨targetVisible_eq_of_visibleOf _ _ j h, h⟩

/-- Witness for C8: after the sample session, unchecking the control of target 1 leaves
target 3 as it is. -/
theorem visibility_material_independent_witness :
    TargetId.batmobile3 ≠ TargetId.batmobile1 ∧
    (visibilityOnChange TargetId.batmobile1 false
        (run (fun x => x) init sampleSession)).target TargetId.batmobile3
      = (run (fun x => x) init sampleSession).target TargetId.batmobile3 :=
  ⟨by decide,
    ((visibility_material_independent (run (fun x => x) init sampleSession)).1
      TargetId.batmobile1 false).2.2.1 TargetId.batmobile3 (by decide)⟩

/-- Every event keeps the blending mode and the depth-write flag of the shader material. -/
theorem step_blending (sin : ℚ → ℚ) (s : State) (e : Event) :
    (step sin s e).shaderMaterial.blending = s.shaderMaterial.blending ∧
    (step sin s e).shaderMaterial.depthWrite = s.shaderMaterial.depthWrite := by
  cases e with
  | color v => exact ⟨rfl, rfl⟩
  | uLineWork v => exact ⟨rfl, rfl⟩
  | material v => simp [step, materialOnChange, updateMaterials_eq]
  | matcap i => simp [step, matcapOnChange, updateMaterials_eq]
  | visibility t v =>
    have hf := (visibilityOnChange_fields t v (setObjectVisibility t v s)).2.2.2.1
    have hs : (setObjectVisibility t v s).shaderMaterial = s.shaderMaterial := by
      cases t <;> rfl
    simp only [step, hf, hs, and_self]
  | load t g => cases t <;> simp [step, loadCallback, load1_eq, load2_eq, load3_eq]
  | frame t => simp [step, tick_eq]

/-- C9. Blending policy of the holographic material: the shader material is created with
additive blending and depth writing disabled, and in every state reached from the initial state
by any sequence of events (GUI changes of color, line work, material kind, matcap index and
visibility, load completions, frames) its blending is additive and its depth-write flag is
false. -/
theorem shader_blending_invariant (sin : ℚ → ℚ) (events : List Event) :
    init.shaderMaterial.blending = Blending.AdditiveBlending ∧
    init.shaderMaterial.depthWrite = false ∧
    (run sin init events).shaderMaterial.blending = Blending.AdditiveBlending ∧
    (run sin init events).shaderMaterial.depthWrite = false := by
  have key : ∀ (es : List Event) (s : State),
      (run sin s es).shaderMaterial.blending = s.shaderMaterial.blending ∧
      (run sin s es).shaderMaterial.depthWrite = s.shaderMaterial.depthWrite := by
    intro es
    induction es with
    | nil => intro s; exact ⟨rfl, rfl⟩
    | cons e es ih =>
      intro s
      have h1 := ih (step sin s e)
      have h2 := step_blending sin s e
      exact ⟨h1.1.trans h2.1, h1.2.trans h2.2⟩
  have h := key events init
  exact ⟨rfl, rfl, h.1.trans rfl, h.2.trans rfl⟩

end Batmobile
